import Mathlib

/-!
Verification of the rtsystems-to-chirp CSV conversion engine
(`rtsys2chirp.py`), shallowly embedded in Lean 4.

A source record ("row" of the input CSV, as produced by `csv.DictReader`)
is an ordered association list from source column names to raw string
values; Python dicts preserve insertion order and have unique keys, so an
association list with `Nodup` keys models them exactly.  Destination
records are ordered association lists from destination column names to
values that can be a string, a rational number (modelling the Python
float computed by `convert_frequency_to_mhz`), the integer row counter, or
Python `None` (which `row.get("Name")` yields when the key is absent).

Python exceptions (`KeyError` raised by `row["Receive Frequency"]` and by
`column_mapping[field]`) are modelled with `Except String`.
-/

/-- A source record: one row of the rtsystems CSV as an ordered mapping
from column name to raw cell string (missing/blank cells read as `""`). -/
abbrev SrcRecord := List (String × String)

/-- A destination value: chirp cells are strings, floats (modelled as
exact rationals), the integer location counter, or Python `None`. -/
inductive DVal where
  | str (v : String)
  | rat (v : ℚ)
  | int (v : Nat)
  | pyNone
  deriving DecidableEq

/-- A destination record: one chirp row as an ordered mapping. -/
abbrev ChirpRow := List (String × DVal)

/-- Python `d.get(k)` / `d[k]` lookup on an ordered mapping: the value at
the first (hence, for `Nodup` keys, the only) matching key. -/
def dictGet? {α : Type} : List (String × α) → String → Option α
  | [], _ => Option.none
  | (k, v) :: rest, key => if key = k then some v else dictGet? rest key

/-- Python `d[k] = v` assignment: overwrite in place when the key exists
(preserving insertion order), otherwise append at the end. -/
def dictSet : ChirpRow → String → DVal → ChirpRow
  | [], k, v => [(k, v)]
  | (k0, v0) :: rest, k, v =>
    if k = k0 then (k, v) :: rest else (k0, v0) :: dictSet rest k v

/-- The keys of an ordered mapping, in order. -/
def dictKeys {α : Type} (d : List (String × α)) : List String :=
  d.map Prod.fst

/-- `column_mapping` from the source: rtsystems column → chirp column. -/
def column_mapping : List (String × String) :=
  [("Name", "Name"),
   ("Receive Frequency", "Frequency"),
   ("Offset Frequency", "Offset"),
   ("Offset Direction", "Duplex"),
   ("Tone Mode", "Tone"),
   ("Operating Mode", "Mode"),
   ("CTCSS", ""),
   ("DCS", ""),
   ("Step", "TStep"),
   ("Skip", "Skip"),
   ("TX Power", "Power")]

/-- `mode_mapping` from the source: rtsystems operating mode → chirp mode. -/
def mode_mapping : List (String × String) :=
  [("WFM", "WFM"),
   ("FM", "FM"),
   ("FM Narrow", "NFM"),
   ("AM", "AM"),
   ("NAM", "NAM"),
   ("DN", "DIG"),
   ("USB", "USB"),
   ("LSB", "LSB"),
   ("CW", "CW"),
   ("RTTY", "RTTY"),
   ("DIG", "DIG"),
   ("PKT", "PKT")]

/-- `duplex_mapping` from the source. -/
def duplex_mapping : List (String × String) :=
  [("Simplex", "off"), ("Minus", "-"), ("Plus", "+")]

/-- `tone_mapping` from the source. -/
def tone_mapping : List (String × String) :=
  [("Tone", "Tone"), ("T Sql", "TSQL"), ("DCS", "DTCS"), ("Rev CTCSS", "DTCS-R")]

/-- `skip_mapping` from the source. -/
def skip_mapping : List (String × String) :=
  [("Skip", "S"), ("Scan", "P"), ("P Scan", "P")]

/-- `additional_fields` from the source: the four tone/code columns that
are appended to the chirp header. -/
def additional_fields : List String :=
  ["rToneFreq", "cToneFreq", "DtcsCode", "RxDtcsCode"]

/-- Python `table.get(value, "")`: total lookup with empty-string default. -/
def getDefault (table : List (String × String)) (v : String) : String :=
  (dictGet? table v).getD ""

/-- `mode_mapping.get(value, "")` as used at line 115 of the source. -/
def mode_get (v : String) : String := getDefault mode_mapping v

/-- `duplex_mapping.get(value, "")` as used at line 117 of the source. -/
def duplex_get (v : String) : String := getDefault duplex_mapping v

/-- `tone_mapping.get(value, "")` as used at line 119 of the source. -/
def tone_get (v : String) : String := getDefault tone_mapping v

/-- `skip_mapping.get(value, "")` as used at line 121 of the source. -/
def skip_get (v : String) : String := getDefault skip_mapping v

/-!  The frequency normalizer `convert_frequency_to_mhz`.

Python `float` results are modelled as exact rationals; the decimal
literals appearing in the claims ("600 kHz" → 0.6 etc.) satisfy the same
equalities in IEEE doubles, since each side parses/rounds to the same
double.  `parseFloat?` models the finite decimal/exponent literals
accepted by Python `float` (sign, digits, optional fraction, optional
exponent, surrounding whitespace); it does not model `inf`/`nan` or digit
underscores, which no claim exercises and ℚ cannot represent. -/

/-- Does the character list contain the three-character pattern
`p1 p2 p3` as a contiguous substring?  Models Python `pat in value` for
the three-character patterns `"khz"` and `"mhz"`. -/
def hasSub3 (p1 p2 p3 : Char) : List Char → Bool
  | c1 :: c2 :: c3 :: rest =>
    if c1 = p1 ∧ c2 = p2 ∧ c3 = p3 then true
    else hasSub3 p1 p2 p3 (c2 :: c3 :: rest)
  | _ => false

/-- Remove every (left-to-right, non-overlapping) occurrence of the
three-character pattern `p1 p2 p3`.  Models Python
`value.replace(pat, "")` for the patterns `"khz"` and `"mhz"`. -/
def removeSub (p1 p2 p3 : Char) : List Char → List Char
  | c1 :: c2 :: c3 :: rest =>
    if c1 = p1 ∧ c2 = p2 ∧ c3 = p3 then removeSub p1 p2 p3 rest
    else c1 :: removeSub p1 p2 p3 (c2 :: c3 :: rest)
  | other => other

/-- Python `str.strip()`: drop leading and trailing whitespace. -/
def stripChars (cs : List Char) : List Char :=
  ((cs.dropWhile Char.isWhitespace).reverse.dropWhile Char.isWhitespace).reverse

/-- The numeric value of a digit string (most significant first). -/
def digitsVal (cs : List Char) : Nat :=
  cs.foldl (fun a c => a * 10 + (c.toNat - 48)) 0

/-- Parse an optional trailing exponent part (`e`/`E`, optional sign,
digits); an empty remainder means exponent 0; anything else fails. -/
def parseExp? : List Char → Option Int
  | [] => some 0
  | c :: r =>
    if c = 'e' ∨ c = 'E' then
      match r with
      | '+' :: d =>
        if !d.isEmpty ∧ d.all Char.isDigit then some (digitsVal d) else Option.none
      | '-' :: d =>
        if !d.isEmpty ∧ d.all Char.isDigit then some (-(digitsVal d : Int)) else Option.none
      | d =>
        if !d.isEmpty ∧ d.all Char.isDigit then some (digitsVal d) else Option.none
    else Option.none

/-- The syntactic parts of a decimal float literal: negative-sign flag,
integer digits, fraction digits, exponent.  `Option.none` models the
`ValueError` raised by Python `float` on malformed input. -/
def parseParts? (cs0 : List Char) : Option (Bool × List Char × List Char × Int) :=
  let cs := stripChars cs0
  let sgn : Bool × List Char :=
    match cs with
    | '+' :: r => (false, r)
    | '-' :: r => (true, r)
    | r => (false, r)
  let ip := sgn.2.takeWhile Char.isDigit
  let r1 := sgn.2.dropWhile Char.isDigit
  let fpr : List Char × List Char :=
    match r1 with
    | '.' :: r => (r.takeWhile Char.isDigit, r.dropWhile Char.isDigit)
    | r => ([], r)
  if ip.isEmpty ∧ fpr.1.isEmpty then Option.none
  else
    match parseExp? fpr.2 with
    | Option.none => Option.none
    | some e => some (sgn.1, ip, fpr.1, e)

/-- The rational value denoted by parsed float parts. -/
def partsVal (p : Bool × List Char × List Char × Int) : ℚ :=
  (if p.1 then -1 else 1) *
    ((digitsVal p.2.1 : ℚ) + (digitsVal p.2.2.1 : ℚ) / 10 ^ p.2.2.1.length) * 10 ^ p.2.2.2

/-- Python `float(s)` on finite decimal literals, as an exact rational;
`Option.none` models the `ValueError` that the source catches. -/
def parseFloat? (cs : List Char) : Option ℚ :=
  (parseParts? cs).map partsVal

/-- `value.lower()` on the character list (the unit tokens are ASCII). -/
def freqLower (s : String) : List Char :=
  s.toList.map Char.toLower

/-- The string handed to `float(...)` by `convert_frequency_to_mhz`:
strip the unit token (if any) and surrounding whitespace. -/
def numericPart (s : String) : List Char :=
  let v := freqLower s
  if hasSub3 'k' 'h' 'z' v then stripChars (removeSub 'k' 'h' 'z' v)
  else if hasSub3 'm' 'h' 'z' v then stripChars (removeSub 'm' 'h' 'z' v)
  else v

/-- `convert_frequency_to_mhz` from the source (lines 59-72): lower-case,
strip a `khz`/`mhz` unit token, parse as float (dividing by 1000 in the
kHz case), and return 0.0 when `float` raises `ValueError`. -/
def convert_frequency_to_mhz (s : String) : ℚ :=
  match parseFloat? (numericPart s) with
  | Option.none => 0
  | some q => if hasSub3 'k' 'h' 'z' (freqLower s) then q / 1000 else q

example : convert_frequency_to_mhz "600 kHz" = 3 / 5 := by
  have h1 : parseParts? (numericPart "600 kHz") = some (false, ['6', '0', '0'], [], 0) := by
    decide
  have h2 : digitsVal ['6', '0', '0'] = 600 := by decide
  have h3 : hasSub3 'k' 'h' 'z' (freqLower "600 kHz") = true := by decide
  simp only [convert_frequency_to_mhz, parseFloat?, h1, h3, Option.map_some', if_true]
  norm_num [partsVal, h2, show digitsVal [] = 0 from rfl]

example : convert_frequency_to_mhz "5.000 MHz" = 5 := by
  have h1 : parseParts? (numericPart "5.000 MHz") =
      some (false, ['5'], ['0', '0', '0'], 0) := by decide
  have h3 : hasSub3 'k' 'h' 'z' (freqLower "5.000 MHz") = false := by decide
  simp only [convert_frequency_to_mhz, parseFloat?, h1, h3, Option.map_some', if_false]
  norm_num [partsVal, show digitsVal ['5'] = 5 from by decide,
    show digitsVal ['0', '0', '0'] = 0 from by decide]

example : convert_frequency_to_mhz "146.520" = 14652 / 100 := by
  have h1 : parseParts? (numericPart "146.520") =
      some (false, ['1', '4', '6'], ['5', '2', '0'], 0) := by decide
  have h3 : hasSub3 'k' 'h' 'z' (freqLower "146.520") = false := by decide
  simp only [convert_frequency_to_mhz, parseFloat?, h1, h3, Option.map_some', if_false]
  norm_num [partsVal, show digitsVal ['1', '4', '6'] = 146 from by decide,
    show digitsVal ['5', '2', '0'] = 520 from by decide]

example : convert_frequency_to_mhz "garbage" = 0 := by rfl

/-!  The per-record transformer: the body of the `for idx, row in
enumerate(reader, start=1)` loop of `convert_csv` (source lines 105-145).
Python's `match field:` over string literals is an ordered first-match
dispatch, embedded as an equality chain. -/

/-- One iteration of the `for field, value in row.items():` loop
(source lines 112-144), updating the chirp row under construction.
The `Comment` case with a non-empty value evaluates
`column_mapping["Comment"]`, and `"Comment"` is not a key of
`column_mapping`, so that lookup raises `KeyError` (modelled as
`Except.error`).  The empty-`Comment` case stores `row.get("Name")`,
which is Python `None` when the record has no `Name` column. -/
def applyField (row : SrcRecord) (cr : ChirpRow) (field value : String) :
    Except String ChirpRow :=
  if field = "Operating Mode" then
    Except.ok (dictSet cr "Mode" (DVal.str (mode_get value)))
  else if field = "Offset Direction" then
    Except.ok (dictSet cr "Duplex" (DVal.str (duplex_get value)))
  else if field = "Tone Mode" then
    Except.ok (dictSet cr "Tone" (DVal.str (tone_get value)))
  else if field = "Skip" then
    Except.ok (dictSet cr "Skip" (DVal.str (skip_get value)))
  else if field = "Offset Frequency" then
    Except.ok (dictSet cr "Offset" (DVal.rat (convert_frequency_to_mhz value)))
  else if field = "Step" then
    Except.ok (dictSet cr "TStep" (DVal.rat (convert_frequency_to_mhz value * 1000)))
  else if field = "CTCSS" then
    Except.ok (dictSet (dictSet cr "rToneFreq" (DVal.str value)) "cToneFreq" (DVal.str value))
  else if field = "DCS" then
    Except.ok (dictSet (dictSet cr "DtcsCode" (DVal.str value)) "RxDtcsCode" (DVal.str value))
  else if field = "Comment" then
    if value = "" then
      Except.ok (dictSet cr "Comment"
        (match dictGet? row "Name" with
         | some nm => DVal.str nm
         | Option.none => DVal.pyNone))
    else Except.error "KeyError: Comment"
  else
    match dictGet? column_mapping field with
    | some m => Except.ok (dictSet cr m (DVal.str value))
    | Option.none => Except.ok cr

/-- The whole `for field, value in row.items():` loop over a record. -/
def applyFields (row : SrcRecord) (cr : ChirpRow) : List (String × String) → Except String ChirpRow
  | [] => Except.ok cr
  | (f, v) :: rest =>
    match applyField row cr f v with
    | Except.ok cr' => applyFields row cr' rest
    | Except.error e => Except.error e

/-- One iteration of the record loop (source lines 105-145): look up
`row["Receive Frequency"]` (`KeyError` when the column is absent), drop
records with a falsy (empty) value, otherwise build the chirp row starting
from `{"Location": idx}`.  `Except.ok Option.none` is a dropped record;
`Except.ok (some cr)` is an emitted record. -/
def processRow (idx : Nat) (row : SrcRecord) : Except String (Option ChirpRow) :=
  match dictGet? row "Receive Frequency" with
  | Option.none => Except.error "KeyError: Receive Frequency"
  | some v =>
    if v = "" then Except.ok Option.none
    else (applyFields row [("Location", DVal.int idx)] row).map some

/-- The record loop of `convert_csv`, with `idx` the `enumerate` counter:
processes the records in order, collecting the emitted chirp rows;
any exception aborts the run. -/
def convertRows (idx : Nat) : List SrcRecord → Except String (List ChirpRow)
  | [] => Except.ok []
  | r :: rest =>
    match processRow idx r with
    | Except.error e => Except.error e
    | Except.ok Option.none => convertRows (idx + 1) rest
    | Except.ok (some cr) => (convertRows (idx + 1) rest).map (cr :: ·)

/-- The engine of `convert_csv` on a full record sequence, starting the
row counter at 1 as `enumerate(reader, start=1)` does. -/
def convert_rows (rows : List SrcRecord) : Except String (List ChirpRow) :=
  convertRows 1 rows

/-- The chirp header derivation (source lines 89-98): `"Location"`, then
the non-empty mapped names of the source columns after the first, then
`additional_fields`, then `"Comment"`. -/
def chirp_fieldnames (fieldnames : List String) : List String :=
  ["Location"] ++
    ((fieldnames.drop 1).filterMap (fun f =>
      match dictGet? column_mapping f with
      | some m => if m = "" then Option.none else some m
      | Option.none => Option.none)) ++
    additional_fields ++ ["Comment"]

/-- Does a record pass the filtering rule `if not row["Receive Frequency"]`,
i.e. does it carry a non-empty `Receive Frequency` value? -/
def acceptedRF (r : SrcRecord) : Bool :=
  match dictGet? r "Receive Frequency" with
  | some v => !(v == "")
  | Option.none => false

/-- Does a chirp row carry `Location = n`? -/
def locIs (n : Nat) (cr : ChirpRow) : Bool :=
  dictGet? cr "Location" == some (DVal.int n)

example :
    processRow 1 [("Name", "Repeater1"), ("Receive Frequency", "146.52")] =
      Except.ok (some [("Location", DVal.int 1), ("Name", DVal.str "Repeater1"),
        ("Frequency", DVal.str "146.52")]) := rfl

example :
    processRow 1 [("Name", "Repeater1"), ("Receive Frequency", "146.52"), ("Comment", "Club net")] =
      Except.error "KeyError: Comment" := rfl

example : processRow 3 [("Receive Frequency", "")] = Except.ok Option.none := rfl

example : processRow 3 [("Name", "X")] = Except.error "KeyError: Receive Frequency" := rfl

example :
    chirp_fieldnames ["Name", "Receive Frequency", "Operating Mode", "CTCSS", "Comment"] =
      ["Location", "Frequency", "Mode", "rToneFreq", "cToneFreq", "DtcsCode", "RxDtcsCode",
        "Comment"] := by decide

/-!  Basic lemmas about the ordered-mapping operations. -/

lemma dictGet?_dictSet_self (d : ChirpRow) (k : String) (v : DVal) :
    dictGet? (dictSet d k v) k = some v := by
  induction d with
  | nil => simp [dictSet, dictGet?]
  | cons p rest ih =>
    obtain ⟨k0, v0⟩ := p
    by_cases h : k = k0
    · simp [dictSet, dictGet?, h]
    · simp [dictSet, dictGet?, h, ih]

lemma dictGet?_dictSet_ne (d : ChirpRow) (k k' : String) (v : DVal) (h : k' ≠ k) :
    dictGet? (dictSet d k v) k' = dictGet? d k' := by
  induction d with
  | nil => simp [dictSet, dictGet?, h]
  | cons p rest ih =>
    obtain ⟨k0, v0⟩ := p
    by_cases h0 : k = k0
    · subst h0
      simp [dictSet, dictGet?, h]
    · by_cases h1 : k' = k0
      · simp [dictSet, dictGet?, h0, h1]
      · simp [dictSet, dictGet?, h0, h1, ih]

lemma dictGet?_mem {α : Type} (d : List (String × α)) (k : String) (v : α)
    (h : dictGet? d k = some v) : (k, v) ∈ d := by
  induction d with
  | nil => simp [dictGet?] at h
  | cons p rest ih =>
    obtain ⟨k0, v0⟩ := p
    by_cases h0 : k = k0
    · subst h0
      simp [dictGet?] at h
      simp [h]
    · simp [dictGet?, h0] at h
      exact List.mem_cons_of_mem _ (ih h)

lemma dictGet?_eq_none {α : Type} (d : List (String × α)) (k : String)
    (h : k ∉ d.map Prod.fst) : dictGet? d k = Option.none := by
  induction d with
  | nil => simp [dictGet?]
  | cons p rest ih =>
    obtain ⟨k0, v0⟩ := p
    simp only [List.map_cons, List.mem_cons, not_or] at h
    simp [dictGet?, h.1, ih h.2]

/-!  Which destination keys each source field can write, and the
resulting frame lemmas for the field loop. -/

/-- The destination keys that one iteration of the field loop can touch,
as a function of the source column name. -/
def fieldWrites (field : String) : List String :=
  if field = "Operating Mode" then ["Mode"]
  else if field = "Offset Direction" then ["Duplex"]
  else if field = "Tone Mode" then ["Tone"]
  else if field = "Skip" then ["Skip"]
  else if field = "Offset Frequency" then ["Offset"]
  else if field = "Step" then ["TStep"]
  else if field = "CTCSS" then ["rToneFreq", "cToneFreq"]
  else if field = "DCS" then ["DtcsCode", "RxDtcsCode"]
  else if field = "Comment" then ["Comment"]
  else
    match dictGet? column_mapping field with
    | some m => [m]
    | Option.none => []

/-- Every (source field, touched destination key) pair is one of the
explicit dispatch cases or an entry of `column_mapping`. -/
lemma mem_fieldWrites_pairs (f k : String) (h : k ∈ fieldWrites f) :
    (f, k) ∈ ([("Operating Mode", "Mode"), ("Offset Direction", "Duplex"),
      ("Tone Mode", "Tone"), ("Skip", "Skip"), ("Offset Frequency", "Offset"),
      ("Step", "TStep"), ("CTCSS", "rToneFreq"), ("CTCSS", "cToneFreq"),
      ("DCS", "DtcsCode"), ("DCS", "RxDtcsCode"), ("Comment", "Comment")] ++
        column_mapping) := by
  unfold fieldWrites at h
  split_ifs at h with h1 h2 h3 h4 h5 h6 h7 h8 h9
  · simp_all
  · simp_all
  · simp_all
  · simp_all
  · simp_all
  · simp_all
  · simp at h
    rcases h with h | h <;> simp_all
  · simp at h
    rcases h with h | h <;> simp_all
  · simp_all
  · cases hq : dictGet? column_mapping f with
    | none => rw [hq] at h; simp at h
    | some m =>
      rw [hq] at h
      simp at h
      subst h
      exact List.mem_append_right _ (dictGet?_mem _ _ _ hq)

lemma writes_Location (f : String) : "Location" ∉ fieldWrites f := by
  intro h
  have := mem_fieldWrites_pairs f _ h
  simp [column_mapping] at this

lemma writes_TStep (f : String) (h : "TStep" ∈ fieldWrites f) : f = "Step" := by
  have := mem_fieldWrites_pairs f _ h
  simp [column_mapping] at this
  tauto

lemma writes_Offset (f : String) (h : "Offset" ∈ fieldWrites f) : f = "Offset Frequency" := by
  have := mem_fieldWrites_pairs f _ h
  simp [column_mapping] at this
  tauto

lemma writes_rToneFreq (f : String) (h : "rToneFreq" ∈ fieldWrites f) : f = "CTCSS" := by
  have := mem_fieldWrites_pairs f _ h
  simp [column_mapping] at this
  tauto

lemma writes_cToneFreq (f : String) (h : "cToneFreq" ∈ fieldWrites f) : f = "CTCSS" := by
  have := mem_fieldWrites_pairs f _ h
  simp [column_mapping] at this
  tauto

lemma writes_DtcsCode (f : String) (h : "DtcsCode" ∈ fieldWrites f) : f = "DCS" := by
  have := mem_fieldWrites_pairs f _ h
  simp [column_mapping] at this
  tauto

lemma writes_RxDtcsCode (f : String) (h : "RxDtcsCode" ∈ fieldWrites f) : f = "DCS" := by
  have := mem_fieldWrites_pairs f _ h
  simp [column_mapping] at this
  tauto

lemma writes_Comment (f : String) (h : "Comment" ∈ fieldWrites f) : f = "Comment" := by
  have := mem_fieldWrites_pairs f _ h
  simp [column_mapping] at this
  tauto

/-- Frame lemma: a loop iteration for field `f` leaves every destination
key outside `fieldWrites f` unchanged. -/
lemma applyField_untouched (row : SrcRecord) (cr cr' : ChirpRow) (f v k : String)
    (hw : k ∉ fieldWrites f) (h : applyField row cr f v = Except.ok cr') :
    dictGet? cr' k = dictGet? cr k := by
  by_cases h1 : f = "Operating Mode"
  · subst h1
    rw [show fieldWrites "Operating Mode" = ["Mode"] from rfl] at hw
    replace h : Except.ok (dictSet cr "Mode" (DVal.str (mode_get v))) = Except.ok cr' := h
    injection h with h
    subst h
    exact dictGet?_dictSet_ne _ _ _ _ (by simpa using hw)
  by_cases h2 : f = "Offset Direction"
  · subst h2
    rw [show fieldWrites "Offset Direction" = ["Duplex"] from rfl] at hw
    replace h : Except.ok (dictSet cr "Duplex" (DVal.str (duplex_get v))) = Except.ok cr' := h
    injection h with h
    subst h
    exact dictGet?_dictSet_ne _ _ _ _ (by simpa using hw)
  by_cases h3 : f = "Tone Mode"
  · subst h3
    rw [show fieldWrites "Tone Mode" = ["Tone"] from rfl] at hw
    replace h : Except.ok (dictSet cr "Tone" (DVal.str (tone_get v))) = Except.ok cr' := h
    injection h with h
    subst h
    exact dictGet?_dictSet_ne _ _ _ _ (by simpa using hw)
  by_cases h4 : f = "Skip"
  · subst h4
    rw [show fieldWrites "Skip" = ["Skip"] from rfl] at hw
    replace h : Except.ok (dictSet cr "Skip" (DVal.str (skip_get v))) = Except.ok cr' := h
    injection h with h
    subst h
    exact dictGet?_dictSet_ne _ _ _ _ (by simpa using hw)
  by_cases h5 : f = "Offset Frequency"
  · subst h5
    rw [show fieldWrites "Offset Frequency" = ["Offset"] from rfl] at hw
    replace h : Except.ok (dictSet cr "Offset"
      (DVal.rat (convert_frequency_to_mhz v))) = Except.ok cr' := h
    injection h with h
    subst h
    exact dictGet?_dictSet_ne _ _ _ _ (by simpa using hw)
  by_cases h6 : f = "Step"
  · subst h6
    rw [show fieldWrites "Step" = ["TStep"] from rfl] at hw
    replace h : Except.ok (dictSet cr "TStep"
      (DVal.rat (convert_frequency_to_mhz v * 1000))) = Except.ok cr' := h
    injection h with h
    subst h
    exact dictGet?_dictSet_ne _ _ _ _ (by simpa using hw)
  by_cases h7 : f = "CTCSS"
  · subst h7
    rw [show fieldWrites "CTCSS" = ["rToneFreq", "cToneFreq"] from rfl] at hw
    simp only [List.mem_cons, List.mem_singleton, not_or] at hw
    replace h : Except.ok (dictSet (dictSet cr "rToneFreq" (DVal.str v)) "cToneFreq"
      (DVal.str v)) = Except.ok cr' := h
    injection h with h
    subst h
    rw [dictGet?_dictSet_ne _ _ _ _ hw.2.1, dictGet?_dictSet_ne _ _ _ _ hw.1]
  by_cases h8 : f = "DCS"
  · subst h8
    rw [show fieldWrites "DCS" = ["DtcsCode", "RxDtcsCode"] from rfl] at hw
    simp only [List.mem_cons, List.mem_singleton, not_or] at hw
    replace h : Except.ok (dictSet (dictSet cr "DtcsCode" (DVal.str v)) "RxDtcsCode"
      (DVal.str v)) = Except.ok cr' := h
    injection h with h
    subst h
    rw [dictGet?_dictSet_ne _ _ _ _ hw.2.1, dictGet?_dictSet_ne _ _ _ _ hw.1]
  by_cases h9 : f = "Comment"
  · subst h9
    rw [show fieldWrites "Comment" = ["Comment"] from rfl] at hw
    replace h : (if v = "" then
        Except.ok (dictSet cr "Comment"
          (match dictGet? row "Name" with
           | some nm => DVal.str nm
           | Option.none => DVal.pyNone))
      else Except.error "KeyError: Comment") = Except.ok cr' := h
    split_ifs at h with hv
    · injection h with h
      subst h
      exact dictGet?_dictSet_ne _ _ _ _ (by simpa using hw)
  -- default dispatch case
  unfold applyField at h
  unfold fieldWrites at hw
  rw [if_neg h1, if_neg h2, if_neg h3, if_neg h4, if_neg h5, if_neg h6, if_neg h7,
    if_neg h8, if_neg h9] at h hw
  cases hq : dictGet? column_mapping f with
  | none =>
    rw [hq] at h
    replace h : Except.ok cr = Except.ok cr' := h
    injection h with h
    subst h
    rfl
  | some m =>
    rw [hq] at h hw
    replace h : Except.ok (dictSet cr m (DVal.str v)) = Except.ok cr' := h
    injection h with h
    subst h
    exact dictGet?_dictSet_ne _ _ _ _ (by simpa using hw)

/-- Frame lemma for the whole loop: if no field of `l` can write key `k`,
the final row agrees with the initial one at `k`. -/
lemma applyFields_untouched (row : SrcRecord) (l : List (String × String))
    (cr cr' : ChirpRow) (k : String)
    (hl : ∀ p ∈ l, k ∉ fieldWrites p.1)
    (h : applyFields row cr l = Except.ok cr') :
    dictGet? cr' k = dictGet? cr k := by
  induction l generalizing cr with
  | nil =>
    simp only [applyFields, Except.ok.injEq] at h
    subst h
    rfl
  | cons p rest ih =>
    obtain ⟨f, v⟩ := p
    simp only [applyFields] at h
    cases ha : applyField row cr f v with
    | error e => rw [ha] at h; simp at h
    | ok mid =>
      rw [ha] at h
      have h1 := ih mid (fun q hq => hl q (List.mem_cons_of_mem _ hq)) h
      rw [h1, applyField_untouched row cr mid f v k (hl (f, v) (List.mem_cons_self _ _)) ha]

/-- Splitting the loop over an appended field list. -/
lemma applyFields_append (row : SrcRecord) (l1 l2 : List (String × String))
    (cr cr' : ChirpRow)
    (h : applyFields row cr (l1 ++ l2) = Except.ok cr') :
    ∃ mid, applyFields row cr l1 = Except.ok mid ∧ applyFields row mid l2 = Except.ok cr' := by
  induction l1 generalizing cr with
  | nil => exact ⟨cr, rfl, h⟩
  | cons p rest ih =>
    obtain ⟨f, v⟩ := p
    simp only [List.cons_append, applyFields] at h ⊢
    cases ha : applyField row cr f v with
    | error e => rw [ha] at h; simp at h
    | ok mid =>
      rw [ha] at h
      exact ih mid h

/-- Inversion for an emitted record: the `Receive Frequency` value exists
and is non-empty, and the field loop succeeded from `{"Location": idx}`. -/
lemma processRow_ok_some (idx : Nat) (row : SrcRecord) (cr : ChirpRow)
    (h : processRow idx row = Except.ok (some cr)) :
    ∃ v, dictGet? row "Receive Frequency" = some v ∧ v ≠ "" ∧
      applyFields row [("Location", DVal.int idx)] row = Except.ok cr := by
  unfold processRow at h
  cases hq : dictGet? row "Receive Frequency" with
  | none => rw [hq] at h; simp at h
  | some v =>
    rw [hq] at h
    replace h : (if v = "" then Except.ok Option.none
      else Except.map some (applyFields row [("Location", DVal.int idx)] row)) =
        Except.ok (some cr) := h
    split_ifs at h with hv
    · simp at h
    · cases ha : applyFields row [("Location", DVal.int idx)] row with
      | error e => rw [ha] at h; simp [Except.map] at h
      | ok cr0 =>
        rw [ha] at h
        simp only [Except.map, Except.ok.injEq, Option.some.injEq] at h
        subst h
        exact ⟨v, rfl, hv, rfl⟩

/-- Every emitted record carries `Location = idx`, the `enumerate`
counter at the time the record was read. -/
lemma processRow_location (idx : Nat) (row : SrcRecord) (cr : ChirpRow)
    (h : processRow idx row = Except.ok (some cr)) :
    dictGet? cr "Location" = some (DVal.int idx) := by
  obtain ⟨v, _, _, ha⟩ := processRow_ok_some idx row cr h
  rw [applyFields_untouched row row _ cr "Location"
    (fun p _ => writes_Location p.1) ha]
  simp [dictGet?]

/-!  Lemmas about the record loop `convertRows`. -/

/-- `locIs` in terms of the underlying lookup. -/
lemma locIs_iff (n : Nat) (cr : ChirpRow) :
    locIs n cr = true ↔ dictGet? cr "Location" = some (DVal.int n) := by
  simp [locIs]

/-- Inversion for a successful step of the record loop. -/
lemma convertRows_cons_ok (k : Nat) (r : SrcRecord) (rest : List SrcRecord)
    (out : List ChirpRow) (h : convertRows k (r :: rest) = Except.ok out) :
    (processRow k r = Except.ok Option.none ∧ convertRows (k + 1) rest = Except.ok out) ∨
    (∃ cr out', processRow k r = Except.ok (some cr) ∧
      convertRows (k + 1) rest = Except.ok out' ∧ out = cr :: out') := by
  unfold convertRows at h
  cases hp : processRow k r with
  | error e =>
    rw [hp] at h
    replace h : (Except.error e : Except String (List ChirpRow)) = Except.ok out := h
    cases h
  | ok o =>
    rw [hp] at h
    cases o with
    | none =>
      replace h : convertRows (k + 1) rest = Except.ok out := h
      exact Or.inl ⟨rfl, h⟩
    | some cr =>
      replace h : (convertRows (k + 1) rest).map (cr :: ·) = Except.ok out := h
      cases hr : convertRows (k + 1) rest with
      | error e =>
        rw [hr] at h
        replace h : (Except.error e : Except String (List ChirpRow)) = Except.ok out := h
        cases h
      | ok out' =>
        rw [hr] at h
        replace h : Except.ok (cr :: out') = Except.ok out := h
        injection h with h
        exact Or.inr ⟨cr, out', rfl, rfl, h.symm⟩

/-- All locations emitted from counter value `k` onward exceed any `n < k`. -/
lemma convertRows_countP_lt (rows : List SrcRecord) : ∀ (k n : Nat) (out : List ChirpRow),
    convertRows k rows = Except.ok out → n < k → out.countP (locIs n) = 0 := by
  induction rows with
  | nil =>
    intro k n out h hn
    replace h : (Except.ok [] : Except String (List ChirpRow)) = Except.ok out := h
    injection h with h
    subst h
    rfl
  | cons r rest ih =>
    intro k n out h hn
    rcases convertRows_cons_ok k r rest out h with ⟨hp0, hr⟩ | ⟨cr, out', hp0, hr, rfl⟩
    · exact ih (k + 1) n out hr (by omega)
    · rw [List.countP_cons]
      have hloc : locIs n cr = false := by
        simp [locIs, processRow_location _ _ _ hp0]
        omega
      rw [hloc]
      simp [ih (k + 1) n out' hr (by omega)]

/-- The number of emitted rows carrying `Location = k + i` is exactly the
number of rows the record at position `i` produced (0 or 1). -/
lemma convertRows_countP_get (rows : List SrcRecord) :
    ∀ (k i : Nat) (out : List ChirpRow) (o : Option ChirpRow) (hi : i < rows.length),
    convertRows k rows = Except.ok out →
    processRow (k + i) (rows.get ⟨i, hi⟩) = Except.ok o →
    out.countP (locIs (k + i)) = o.toList.length := by
  induction rows with
  | nil => intro k i out o hi; simp at hi
  | cons r rest ih =>
    intro k i out o hi h hp
    rcases convertRows_cons_ok k r rest out h with ⟨hp0, hr⟩ | ⟨cr, out', hp0, hr, rfl⟩
    · cases i with
      | zero =>
        rw [show ((r :: rest).get ⟨0, hi⟩) = r from rfl, Nat.add_zero] at hp
        rw [hp0] at hp
        injection hp with hp
        subst hp
        rw [Nat.add_zero]
        simp [convertRows_countP_lt rest (k + 1) k out hr (by omega)]
      | succ j =>
        have e : k + (j + 1) = (k + 1) + j := by omega
        rw [show ((r :: rest).get ⟨j + 1, hi⟩) = rest.get ⟨j, Nat.lt_of_succ_lt_succ hi⟩
          from rfl] at hp
        rw [e] at hp ⊢
        exact ih (k + 1) j out o (Nat.lt_of_succ_lt_succ hi) hr hp
    · cases i with
      | zero =>
        rw [show ((r :: rest).get ⟨0, hi⟩) = r from rfl, Nat.add_zero] at hp
        rw [hp0] at hp
        injection hp with hp
        subst hp
        rw [Nat.add_zero, List.countP_cons]
        have hloc : locIs k cr = true := by
          simp [locIs, processRow_location _ _ _ hp0]
        rw [hloc]
        simp [convertRows_countP_lt rest (k + 1) k out' hr (by omega)]
      | succ j =>
        have e : k + (j + 1) = (k + 1) + j := by omega
        rw [show ((r :: rest).get ⟨j + 1, hi⟩) = rest.get ⟨j, Nat.lt_of_succ_lt_succ hi⟩
          from rfl] at hp
        rw [e] at hp ⊢
        rw [List.countP_cons]
        have hloc : locIs ((k + 1) + j) cr = false := by
          simp [locIs, processRow_location _ _ _ hp0]
          omega
        rw [hloc]
        simp [ih (k + 1) j out' o (Nat.lt_of_succ_lt_succ hi) hr hp]

/-- A record emitted at position `i` appears in the collected output. -/
lemma convertRows_mem (rows : List SrcRecord) :
    ∀ (k i : Nat) (out : List ChirpRow) (cr : ChirpRow) (hi : i < rows.length),
    convertRows k rows = Except.ok out →
    processRow (k + i) (rows.get ⟨i, hi⟩) = Except.ok (some cr) →
    cr ∈ out := by
  induction rows with
  | nil => intro k i out cr hi; simp at hi
  | cons r rest ih =>
    intro k i out cr hi h hp
    rcases convertRows_cons_ok k r rest out h with ⟨hp0, hr⟩ | ⟨cr0, out', hp0, hr, rfl⟩
    · cases i with
      | zero =>
        rw [show ((r :: rest).get ⟨0, hi⟩) = r from rfl, Nat.add_zero] at hp
        rw [hp0] at hp
        simp at hp
      | succ j =>
        have e : k + (j + 1) = (k + 1) + j := by omega
        rw [show ((r :: rest).get ⟨j + 1, hi⟩) = rest.get ⟨j, Nat.lt_of_succ_lt_succ hi⟩
          from rfl, e] at hp
        exact ih (k + 1) j out cr (Nat.lt_of_succ_lt_succ hi) hr hp
    · cases i with
      | zero =>
        rw [show ((r :: rest).get ⟨0, hi⟩) = r from rfl, Nat.add_zero] at hp
        rw [hp0] at hp
        simp at hp
        subst hp
        exact List.mem_cons_self _ _
      | succ j =>
        have e : k + (j + 1) = (k + 1) + j := by omega
        rw [show ((r :: rest).get ⟨j + 1, hi⟩) = rest.get ⟨j, Nat.lt_of_succ_lt_succ hi⟩
          from rfl, e] at hp
        exact List.mem_cons_of_mem _ (ih (k + 1) j out' cr (Nat.lt_of_succ_lt_succ hi) hr hp)

/-- A successful run processed every record without an exception. -/
lemma convertRows_ok_each (rows : List SrcRecord) :
    ∀ (k i : Nat) (out : List ChirpRow) (hi : i < rows.length),
    convertRows k rows = Except.ok out →
    ∃ o, processRow (k + i) (rows.get ⟨i, hi⟩) = Except.ok o := by
  induction rows with
  | nil => intro k i out hi; simp at hi
  | cons r rest ih =>
    intro k i out hi h
    rcases convertRows_cons_ok k r rest out h with ⟨hp0, hr⟩ | ⟨cr0, out', hp0, hr, rfl⟩
    · cases i with
      | zero =>
        exact ⟨Option.none, by
          rw [show ((r :: rest).get ⟨0, hi⟩) = r from rfl, Nat.add_zero]
          exact hp0⟩
      | succ j =>
        have e : k + (j + 1) = (k + 1) + j := by omega
        obtain ⟨o, ho⟩ := ih (k + 1) j out (Nat.lt_of_succ_lt_succ hi) hr
        exact ⟨o, by
          rw [show ((r :: rest).get ⟨j + 1, hi⟩) = rest.get ⟨j, Nat.lt_of_succ_lt_succ hi⟩
            from rfl, e]
          exact ho⟩
    · cases i with
      | zero =>
        exact ⟨some cr0, by
          rw [show ((r :: rest).get ⟨0, hi⟩) = r from rfl, Nat.add_zero]
          exact hp0⟩
      | succ j =>
        have e : k + (j + 1) = (k + 1) + j := by omega
        obtain ⟨o, ho⟩ := ih (k + 1) j out' (Nat.lt_of_succ_lt_succ hi) hr
        exact ⟨o, by
          rw [show ((r :: rest).get ⟨j + 1, hi⟩) = rest.get ⟨j, Nat.lt_of_succ_lt_succ hi⟩
            from rfl, e]
          exact ho⟩

/-- An accepted record is never dropped: a successful `processRow` on a
record with non-empty `Receive Frequency` emits a row. -/
lemma processRow_accepted_ok (idx : Nat) (row : SrcRecord) (o : Option ChirpRow)
    (hacc : acceptedRF row = true) (h : processRow idx row = Except.ok o) :
    ∃ cr, o = some cr := by
  unfold acceptedRF at hacc
  cases hq : dictGet? row "Receive Frequency" with
  | none =>
    rw [hq] at hacc
    replace hacc : false = true := hacc
    cases hacc
  | some v =>
    rw [hq] at hacc
    replace hacc : (!(v == "")) = true := hacc
    have hv : v ≠ "" := by simpa using hacc
    unfold processRow at h
    rw [hq] at h
    replace h : (if v = "" then Except.ok Option.none
      else Except.map some (applyFields row [("Location", DVal.int idx)] row)) =
        Except.ok o := h
    rw [if_neg hv] at h
    cases ha : applyFields row [("Location", DVal.int idx)] row with
    | error e =>
      rw [ha] at h
      replace h : (Except.error e : Except String (Option ChirpRow)) = Except.ok o := h
      cases h
    | ok cr =>
      rw [ha] at h
      replace h : Except.ok (some cr) = Except.ok o := h
      injection h with h
      exact ⟨cr, h.symm⟩

/-!  Extraction lemma: value of a key written by exactly one field. -/

/-- If `(f, v)` occurs in a record with `Nodup` column names, `f` is the
only field able to write destination key `k`, and processing `(f, v)`
always stores `dv` at `k`, then the finished row holds `dv` at `k`. -/
lemma applyFields_get_of_mem (row : SrcRecord) (l : List (String × String))
    (init cr : ChirpRow) (f v k : String) (dv : DVal)
    (hnodup : (l.map Prod.fst).Nodup)
    (hmem : (f, v) ∈ l)
    (honly : ∀ g, k ∈ fieldWrites g → g = f)
    (hset : ∀ cr0 cr1, applyField row cr0 f v = Except.ok cr1 → dictGet? cr1 k = some dv)
    (h : applyFields row init l = Except.ok cr) :
    dictGet? cr k = some dv := by
  obtain ⟨l1, l2, rfl⟩ := List.append_of_mem hmem
  obtain ⟨mid, h1, h2⟩ := applyFields_append row l1 ((f, v) :: l2) init cr h
  simp only [applyFields] at h2
  cases ha : applyField row mid f v with
  | error e =>
    rw [ha] at h2
    replace h2 : (Except.error e : Except String ChirpRow) = Except.ok cr := h2
    cases h2
  | ok mid' =>
    rw [ha] at h2
    replace h2 : applyFields row mid' l2 = Except.ok cr := h2
    have hnotin : f ∉ l2.map Prod.fst := by
      have hnd := hnodup
      rw [List.map_append, List.map_cons] at hnd
      exact (List.nodup_cons.mp (List.nodup_append.mp hnd).2.1).1
    have hfree : ∀ p ∈ l2, k ∉ fieldWrites p.1 := by
      intro p hp hkw
      exact hnotin ((honly p.1 hkw) ▸ List.mem_map_of_mem Prod.fst hp)
    rw [applyFields_untouched row l2 mid' cr k hfree h2]
    exact hset mid mid' ha

/-!  Definitional equations for the dispatch cases used positively. -/

lemma applyField_step_eq (row : SrcRecord) (cr : ChirpRow) (v : String) :
    applyField row cr "Step" v =
      Except.ok (dictSet cr "TStep" (DVal.rat (convert_frequency_to_mhz v * 1000))) := rfl

lemma applyField_offset_eq (row : SrcRecord) (cr : ChirpRow) (v : String) :
    applyField row cr "Offset Frequency" v =
      Except.ok (dictSet cr "Offset" (DVal.rat (convert_frequency_to_mhz v))) := rfl

lemma applyField_ctcss_eq (row : SrcRecord) (cr : ChirpRow) (v : String) :
    applyField row cr "CTCSS" v =
      Except.ok (dictSet (dictSet cr "rToneFreq" (DVal.str v)) "cToneFreq" (DVal.str v)) := rfl

lemma applyField_dcs_eq (row : SrcRecord) (cr : ChirpRow) (v : String) :
    applyField row cr "DCS" v =
      Except.ok (dictSet (dictSet cr "DtcsCode" (DVal.str v)) "RxDtcsCode" (DVal.str v)) := rfl

lemma applyField_comment_empty_eq (row : SrcRecord) (cr : ChirpRow) :
    applyField row cr "Comment" "" = Except.ok (dictSet cr "Comment"
      (match dictGet? row "Name" with
       | some nm => DVal.str nm
       | Option.none => DVal.pyNone)) := rfl

/-!  Claim theorems. -/

/-- C5: the frequency normalizer `convert_frequency_to_mhz` is a total
function that never raises: with a `khz` unit token it parses the numeric
part and divides by 1000, with an `mhz` token it parses unchanged,
otherwise it parses the whole string as a bare MHz number, and whenever
the numeric part cannot be parsed it returns 0.0; in particular
"600 kHz" → 0.6, "5.000 MHz" → 5.0, "146.520" → 146.52,
"garbage" → 0.0. -/
theorem C5_frequency_normalizer (s : String) (q : ℚ) :
    convert_frequency_to_mhz "600 kHz" = 3 / 5 ∧
    convert_frequency_to_mhz "5.000 MHz" = 5 ∧
    convert_frequency_to_mhz "146.520" = 14652 / 100 ∧
    convert_frequency_to_mhz "garbage" = 0 ∧
    (parseFloat? (numericPart s) = Option.none → convert_frequency_to_mhz s = 0) ∧
    (parseFloat? (numericPart s) = some q →
      convert_frequency_to_mhz s =
        if hasSub3 'k' 'h' 'z' (freqLower s) then q / 1000 else q) := by
  refine ⟨?_, ?_, ?_, rfl, ?_, ?_⟩
  · have h1 : parseParts? (numericPart "600 kHz") = some (false, ['6', '0', '0'], [], 0) := by
      decide
    have h3 : hasSub3 'k' 'h' 'z' (freqLower "600 kHz") = true := by decide
    simp only [convert_frequency_to_mhz, parseFloat?, h1, h3, Option.map_some', if_true]
    norm_num [partsVal, show digitsVal ['6', '0', '0'] = 600 from by decide,
      show digitsVal [] = 0 from rfl]
  · have h1 : parseParts? (numericPart "5.000 MHz") =
        some (false, ['5'], ['0', '0', '0'], 0) := by decide
    have h3 : hasSub3 'k' 'h' 'z' (freqLower "5.000 MHz") = false := by decide
    simp only [convert_frequency_to_mhz, parseFloat?, h1, h3, Option.map_some', if_false]
    norm_num [partsVal, show digitsVal ['5'] = 5 from by decide,
      show digitsVal ['0', '0', '0'] = 0 from by decide]
  · have h1 : parseParts? (numericPart "146.520") =
        some (false, ['1', '4', '6'], ['5', '2', '0'], 0) := by decide
    have h3 : hasSub3 'k' 'h' 'z' (freqLower "146.520") = false := by decide
    simp only [convert_frequency_to_mhz, parseFloat?, h1, h3, Option.map_some', if_false]
    norm_num [partsVal, show digitsVal ['1', '4', '6'] = 146 from by decide,
      show digitsVal ['5', '2', '0'] = 520 from by decide]
  · intro h
    unfold convert_frequency_to_mhz
    rw [h]
  · intro h
    unfold convert_frequency_to_mhz
    rw [h]

/-- Witness for C5 at concrete inputs: the fallback on "garbage" and the
kHz division on "600 kHz". -/
theorem C5_frequency_normalizer_witness :
    convert_frequency_to_mhz "garbage" = 0 ∧
    convert_frequency_to_mhz "600 kHz" = 600 / 1000 := by
  constructor
  · exact (C5_frequency_normalizer "garbage" 0).2.2.2.2.1 (by decide)
  · have hp : parseFloat? (numericPart "600 kHz") = some 600 := by
      have h1 : parseParts? (numericPart "600 kHz") =
          some (false, ['6', '0', '0'], [], 0) := by decide
      simp only [parseFloat?, h1, Option.map_some', Option.some.injEq]
      norm_num [partsVal, show digitsVal ['6', '0', '0'] = 600 from by decide,
        show digitsVal [] = 0 from rfl]
    have h := (C5_frequency_normalizer "600 kHz" 600).2.2.2.2.2 hp
    rw [h]
    norm_num [show hasSub3 'k' 'h' 'z' (freqLower "600 kHz") = true from by decide]

/-- C6: the four enumerated-value lookups are total, deterministic,
side-effect-free functions (Lean functions by construction): every listed
pair maps exactly per the tables (in particular "FM Narrow" → "NFM",
"Simplex" → "off", "T Sql" → "TSQL", "Skip" → "S"), and any string
outside a table maps to the empty string without raising. -/
theorem C6_enum_lookups (s : String) :
    mode_get "FM Narrow" = "NFM" ∧ duplex_get "Simplex" = "off" ∧
    tone_get "T Sql" = "TSQL" ∧ skip_get "Skip" = "S" ∧
    (mode_mapping.all fun p => mode_get p.1 == p.2) = true ∧
    (duplex_mapping.all fun p => duplex_get p.1 == p.2) = true ∧
    (tone_mapping.all fun p => tone_get p.1 == p.2) = true ∧
    (skip_mapping.all fun p => skip_get p.1 == p.2) = true ∧
    (s ∉ mode_mapping.map Prod.fst → mode_get s = "") ∧
    (s ∉ duplex_mapping.map Prod.fst → duplex_get s = "") ∧
    (s ∉ tone_mapping.map Prod.fst → tone_get s = "") ∧
    (s ∉ skip_mapping.map Prod.fst → skip_get s = "") := by
  refine ⟨by decide, by decide, by decide, by decide, by decide, by decide, by decide,
    by decide, ?_, ?_, ?_, ?_⟩ <;> intro h <;>
    simp [mode_get, duplex_get, tone_get, skip_get, getDefault, dictGet?_eq_none _ _ h]

/-- Witness for C6: the out-of-table input "Unknown Mode" maps to the
empty string in all four tables. -/
theorem C6_enum_lookups_witness :
    mode_get "Unknown Mode" = "" ∧ duplex_get "Unknown Mode" = "" ∧
    tone_get "Unknown Mode" = "" ∧ skip_get "Unknown Mode" = "" := by
  obtain ⟨-, -, -, -, -, -, -, -, a, b, c, d⟩ := C6_enum_lookups "Unknown Mode"
  exact ⟨a (by decide), b (by decide), c (by decide), d (by decide)⟩

/-- C7: for an accepted record, a "Step" column writes destination
`TStep` = 1000 × the normalized MHz value, and an "Offset Frequency"
column writes destination `Offset` = the normalized MHz value itself, so
`TStep` and `Offset` from the same raw string differ by the factor 1000. -/
theorem C7_step_offset (idx : Nat) (row : SrcRecord) (cr : ChirpRow) (v : String)
    (hnodup : (row.map Prod.fst).Nodup)
    (hok : processRow idx row = Except.ok (some cr)) :
    (("Step", v) ∈ row →
      dictGet? cr "TStep" = some (DVal.rat (1000 * convert_frequency_to_mhz v))) ∧
    (("Offset Frequency", v) ∈ row →
      dictGet? cr "Offset" = some (DVal.rat (convert_frequency_to_mhz v))) := by
  obtain ⟨v0, hq, hv, ha⟩ := processRow_ok_some idx row cr hok
  constructor
  · intro hmem
    refine applyFields_get_of_mem row row [("Location", DVal.int idx)] cr "Step" v "TStep"
      (DVal.rat (1000 * convert_frequency_to_mhz v)) hnodup hmem writes_TStep ?_ ha
    intro cr0 cr1 hstep
    rw [applyField_step_eq row cr0 v] at hstep
    injection hstep with hstep
    subst hstep
    rw [dictGet?_dictSet_self, mul_comm]
  · intro hmem
    refine applyFields_get_of_mem row row [("Location", DVal.int idx)] cr "Offset Frequency" v
      "Offset" (DVal.rat (convert_frequency_to_mhz v)) hnodup hmem writes_Offset ?_ ha
    intro cr0 cr1 hoff
    rw [applyField_offset_eq row cr0 v] at hoff
    injection hoff with hoff
    subst hoff
    rw [dictGet?_dictSet_self]

/-- Witness for C7 on a concrete record carrying both a Step and an
Offset Frequency column. -/
theorem C7_step_offset_witness :
    dictGet? [("Location", DVal.int 1), ("Frequency", DVal.str "x"),
        ("TStep", DVal.rat (convert_frequency_to_mhz "600 kHz" * 1000)),
        ("Offset", DVal.rat (convert_frequency_to_mhz "600 kHz"))] "TStep" =
      some (DVal.rat (1000 * convert_frequency_to_mhz "600 kHz")) ∧
    dictGet? [("Location", DVal.int 1), ("Frequency", DVal.str "x"),
        ("TStep", DVal.rat (convert_frequency_to_mhz "600 kHz" * 1000)),
        ("Offset", DVal.rat (convert_frequency_to_mhz "600 kHz"))] "Offset" =
      some (DVal.rat (convert_frequency_to_mhz "600 kHz")) := by
  have h := C7_step_offset 1
    [("Receive Frequency", "x"), ("Step", "600 kHz"), ("Offset Frequency", "600 kHz")]
    [("Location", DVal.int 1), ("Frequency", DVal.str "x"),
      ("TStep", DVal.rat (convert_frequency_to_mhz "600 kHz" * 1000)),
      ("Offset", DVal.rat (convert_frequency_to_mhz "600 kHz"))]
    "600 kHz" (by decide) rfl
  exact ⟨h.1 (by decide), h.2 (by decide)⟩

/-- C8: for an accepted record, a "CTCSS" column is copied verbatim into
both `rToneFreq` and `cToneFreq`, and a "DCS" column verbatim into both
`DtcsCode` and `RxDtcsCode`, with no re-encoding. -/
theorem C8_tone_code_duplication (idx : Nat) (row : SrcRecord) (cr : ChirpRow) (v : String)
    (hnodup : (row.map Prod.fst).Nodup)
    (hok : processRow idx row = Except.ok (some cr)) :
    (("CTCSS", v) ∈ row →
      dictGet? cr "rToneFreq" = some (DVal.str v) ∧
      dictGet? cr "cToneFreq" = some (DVal.str v)) ∧
    (("DCS", v) ∈ row →
      dictGet? cr "DtcsCode" = some (DVal.str v) ∧
      dictGet? cr "RxDtcsCode" = some (DVal.str v)) := by
  obtain ⟨v0, hq, hv, ha⟩ := processRow_ok_some idx row cr hok
  constructor
  · intro hmem
    constructor
    · refine applyFields_get_of_mem row row [("Location", DVal.int idx)] cr "CTCSS" v
        "rToneFreq" (DVal.str v) hnodup hmem writes_rToneFreq ?_ ha
      intro cr0 cr1 hc
      rw [applyField_ctcss_eq row cr0 v] at hc
      injection hc with hc
      subst hc
      rw [dictGet?_dictSet_ne _ _ _ _ (by decide), dictGet?_dictSet_self]
    · refine applyFields_get_of_mem row row [("Location", DVal.int idx)] cr "CTCSS" v
        "cToneFreq" (DVal.str v) hnodup hmem writes_cToneFreq ?_ ha
      intro cr0 cr1 hc
      rw [applyField_ctcss_eq row cr0 v] at hc
      injection hc with hc
      subst hc
      rw [dictGet?_dictSet_self]
  · intro hmem
    constructor
    · refine applyFields_get_of_mem row row [("Location", DVal.int idx)] cr "DCS" v
        "DtcsCode" (DVal.str v) hnodup hmem writes_DtcsCode ?_ ha
      intro cr0 cr1 hc
      rw [applyField_dcs_eq row cr0 v] at hc
      injection hc with hc
      subst hc
      rw [dictGet?_dictSet_ne _ _ _ _ (by decide), dictGet?_dictSet_self]
    · refine applyFields_get_of_mem row row [("Location", DVal.int idx)] cr "DCS" v
        "RxDtcsCode" (DVal.str v) hnodup hmem writes_RxDtcsCode ?_ ha
      intro cr0 cr1 hc
      rw [applyField_dcs_eq row cr0 v] at hc
      injection hc with hc
      subst hc
      rw [dictGet?_dictSet_self]

/-- Witness for C8 on a record with CTCSS "100.0" and DCS "023". -/
theorem C8_tone_code_duplication_witness :
    (dictGet? [("Location", DVal.int 1), ("Frequency", DVal.str "146.52"),
        ("rToneFreq", DVal.str "100.0"), ("cToneFreq", DVal.str "100.0"),
        ("DtcsCode", DVal.str "023"), ("RxDtcsCode", DVal.str "023")] "rToneFreq" =
      some (DVal.str "100.0") ∧
    dictGet? [("Location", DVal.int 1), ("Frequency", DVal.str "146.52"),
        ("rToneFreq", DVal.str "100.0"), ("cToneFreq", DVal.str "100.0"),
        ("DtcsCode", DVal.str "023"), ("RxDtcsCode", DVal.str "023")] "cToneFreq" =
      some (DVal.str "100.0")) ∧
    (dictGet? [("Location", DVal.int 1), ("Frequency", DVal.str "146.52"),
        ("rToneFreq", DVal.str "100.0"), ("cToneFreq", DVal.str "100.0"),
        ("DtcsCode", DVal.str "023"), ("RxDtcsCode", DVal.str "023")] "DtcsCode" =
      some (DVal.str "023") ∧
    dictGet? [("Location", DVal.int 1), ("Frequency", DVal.str "146.52"),
        ("rToneFreq", DVal.str "100.0"), ("cToneFreq", DVal.str "100.0"),
        ("DtcsCode", DVal.str "023"), ("RxDtcsCode", DVal.str "023")] "RxDtcsCode" =
      some (DVal.str "023")) := by
  have h1 := C8_tone_code_duplication 1
    [("Receive Frequency", "146.52"), ("CTCSS", "100.0"), ("DCS", "023")]
    [("Location", DVal.int 1), ("Frequency", DVal.str "146.52"),
      ("rToneFreq", DVal.str "100.0"), ("cToneFreq", DVal.str "100.0"),
      ("DtcsCode", DVal.str "023"), ("RxDtcsCode", DVal.str "023")]
    "100.0" (by decide) rfl
  have h2 := C8_tone_code_duplication 1
    [("Receive Frequency", "146.52"), ("CTCSS", "100.0"), ("DCS", "023")]
    [("Location", DVal.int 1), ("Frequency", DVal.str "146.52"),
      ("rToneFreq", DVal.str "100.0"), ("cToneFreq", DVal.str "100.0"),
      ("DtcsCode", DVal.str "023"), ("RxDtcsCode", DVal.str "023")]
    "023" (by decide) rfl
  exact ⟨h1.1 (by decide), h2.2 (by decide)⟩

/-- C10: for an accepted record whose "Comment" value is empty and whose
column set has no "Name" column, the destination Comment is the
missing-value marker `None` (a non-string value), because the source
stores `row.get("Name")`. -/
theorem C10_comment_pynone (idx : Nat) (row : SrcRecord) (cr : ChirpRow)
    (hnodup : (row.map Prod.fst).Nodup)
    (hok : processRow idx row = Except.ok (some cr))
    (hc : ("Comment", "") ∈ row)
    (hn : dictGet? row "Name" = Option.none) :
    dictGet? cr "Comment" = some DVal.pyNone := by
  obtain ⟨v0, hq, hv, ha⟩ := processRow_ok_some idx row cr hok
  refine applyFields_get_of_mem row row [("Location", DVal.int idx)] cr "Comment" ""
    "Comment" DVal.pyNone hnodup hc writes_Comment ?_ ha
  intro cr0 cr1 hcm
  rw [applyField_comment_empty_eq row cr0, hn] at hcm
  injection hcm with hcm
  subst hcm
  rw [dictGet?_dictSet_self]

/-- Witness for C10 on a record with an empty Comment and no Name column. -/
theorem C10_comment_pynone_witness :
    dictGet? [("Location", DVal.int 1), ("Frequency", DVal.str "146.52"),
      ("Comment", DVal.pyNone)] "Comment" = some DVal.pyNone :=
  C10_comment_pynone 1 [("Receive Frequency", "146.52"), ("Comment", "")]
    [("Location", DVal.int 1), ("Frequency", DVal.str "146.52"), ("Comment", DVal.pyNone)]
    (by decide) rfl (by decide) (by decide)

/-- C9 (amended): the four tone/code names are always present in the
derived destination header, but an emitted record omits
`rToneFreq`/`cToneFreq` when the source record has no "CTCSS" column and
omits `DtcsCode`/`RxDtcsCode` when it has no "DCS" column; the keys are
not populated with empty strings. -/
theorem C9_tone_keys (fieldnames : List String) (idx : Nat) (row : SrcRecord) (cr : ChirpRow)
    (hok : processRow idx row = Except.ok (some cr)) :
    ("rToneFreq" ∈ chirp_fieldnames fieldnames ∧ "cToneFreq" ∈ chirp_fieldnames fieldnames ∧
      "DtcsCode" ∈ chirp_fieldnames fieldnames ∧ "RxDtcsCode" ∈ chirp_fieldnames fieldnames) ∧
    ("CTCSS" ∉ row.map Prod.fst →
      dictGet? cr "rToneFreq" = Option.none ∧ dictGet? cr "cToneFreq" = Option.none) ∧
    ("DCS" ∉ row.map Prod.fst →
      dictGet? cr "DtcsCode" = Option.none ∧ dictGet? cr "RxDtcsCode" = Option.none) := by
  obtain ⟨v0, hq, hv, ha⟩ := processRow_ok_some idx row cr hok
  refine ⟨?_, ?_, ?_⟩
  · simp [chirp_fieldnames, additional_fields]
  · intro hno
    have h1 : ∀ p ∈ row, "rToneFreq" ∉ fieldWrites p.1 := by
      intro p hp hkw
      exact hno ((writes_rToneFreq p.1 hkw) ▸ List.mem_map_of_mem Prod.fst hp)
    have h2 : ∀ p ∈ row, "cToneFreq" ∉ fieldWrites p.1 := by
      intro p hp hkw
      exact hno ((writes_cToneFreq p.1 hkw) ▸ List.mem_map_of_mem Prod.fst hp)
    rw [applyFields_untouched row row _ cr "rToneFreq" h1 ha,
      applyFields_untouched row row _ cr "cToneFreq" h2 ha]
    exact ⟨rfl, rfl⟩
  · intro hno
    have h1 : ∀ p ∈ row, "DtcsCode" ∉ fieldWrites p.1 := by
      intro p hp hkw
      exact hno ((writes_DtcsCode p.1 hkw) ▸ List.mem_map_of_mem Prod.fst hp)
    have h2 : ∀ p ∈ row, "RxDtcsCode" ∉ fieldWrites p.1 := by
      intro p hp hkw
      exact hno ((writes_RxDtcsCode p.1 hkw) ▸ List.mem_map_of_mem Prod.fst hp)
    rw [applyFields_untouched row row _ cr "DtcsCode" h1 ha,
      applyFields_untouched row row _ cr "RxDtcsCode" h2 ha]
    exact ⟨rfl, rfl⟩

/-- Witness for C9 (amended) on a record with neither CTCSS nor DCS. -/
theorem C9_tone_keys_witness :
    ("rToneFreq" ∈ chirp_fieldnames ["Name"] ∧ "cToneFreq" ∈ chirp_fieldnames ["Name"] ∧
      "DtcsCode" ∈ chirp_fieldnames ["Name"] ∧ "RxDtcsCode" ∈ chirp_fieldnames ["Name"]) ∧
    (dictGet? [("Location", DVal.int 1), ("Frequency", DVal.str "146.52")] "rToneFreq" =
        Option.none ∧
      dictGet? [("Location", DVal.int 1), ("Frequency", DVal.str "146.52")] "cToneFreq" =
        Option.none) ∧
    (dictGet? [("Location", DVal.int 1), ("Frequency", DVal.str "146.52")] "DtcsCode" =
        Option.none ∧
      dictGet? [("Location", DVal.int 1), ("Frequency", DVal.str "146.52")] "RxDtcsCode" =
        Option.none) := by
  have h := C9_tone_keys ["Name"] 1 [("Receive Frequency", "146.52")]
    [("Location", DVal.int 1), ("Frequency", DVal.str "146.52")] rfl
  exact ⟨h.1, h.2.1 (by decide), h.2.2 (by decide)⟩

/-- C9 counterexample: a record with neither CTCSS nor DCS columns is
emitted *without* the four tone/code keys, refuting "never omit these
four keys from the destination record". -/
theorem C9_tone_keys_counterexample :
    processRow 1 [("Receive Frequency", "146.52")] =
      Except.ok (some [("Location", DVal.int 1), ("Frequency", DVal.str "146.52")]) ∧
    "rToneFreq" ∉ dictKeys [("Location", DVal.int 1), ("Frequency", DVal.str "146.52")] ∧
    "cToneFreq" ∉ dictKeys [("Location", DVal.int 1), ("Frequency", DVal.str "146.52")] ∧
    "DtcsCode" ∉ dictKeys [("Location", DVal.int 1), ("Frequency", DVal.str "146.52")] ∧
    "RxDtcsCode" ∉ dictKeys [("Location", DVal.int 1), ("Frequency", DVal.str "146.52")] :=
  ⟨rfl, by decide, by decide, by decide, by decide⟩

/-- C2 evaluated at the failing input: an accepted record whose Comment
is empty falls back to the Name value, but a *non-empty* Comment raises
`KeyError` (line 141 evaluates `column_mapping["Comment"]` and "Comment"
is not a key of `column_mapping`), instead of copying the value verbatim
as the specification states. -/
theorem C2_comment_eval :
    processRow 1 [("Name", "Repeater1"), ("Receive Frequency", "146.52"), ("Comment", "")] =
      Except.ok (some [("Location", DVal.int 1), ("Name", DVal.str "Repeater1"),
        ("Frequency", DVal.str "146.52"), ("Comment", DVal.str "Repeater1")]) ∧
    processRow 1 [("Name", "Repeater1"), ("Receive Frequency", "146.52"),
        ("Comment", "Club net")] =
      Except.error "KeyError: Comment" :=
  ⟨rfl, rfl⟩

/-- C3 evaluated at the failing input: with source columns
`["Name", "Receive Frequency"]` the emitted record carries the key
"Name" (the loop also processes the first source column through the
default `column_mapping` case), yet "Name" is not in the derived header
list, refuting "no emitted record contains a key outside that list". -/
theorem C3_emitted_keys_eval :
    processRow 1 [("Name", "Repeater1"), ("Receive Frequency", "146.52")] =
      Except.ok (some [("Location", DVal.int 1), ("Name", DVal.str "Repeater1"),
        ("Frequency", DVal.str "146.52")]) ∧
    "Name" ∈ dictKeys [("Location", DVal.int 1), ("Name", DVal.str "Repeater1"),
      ("Frequency", DVal.str "146.52")] ∧
    "Name" ∉ chirp_fieldnames ["Name", "Receive Frequency"] :=
  ⟨rfl, by decide, by decide⟩

/-- C4 (amended): a record whose "Receive Frequency" *value* is empty is
dropped without an error and the row counter still advances; but a record
whose column set lacks "Receive Frequency" entirely makes the transformer
raise `KeyError` rather than being dropped. -/
theorem C4_empty_drops (idx k : Nat) (r : SrcRecord) (rest : List SrcRecord) :
    (dictGet? r "Receive Frequency" = some "" →
      processRow idx r = Except.ok Option.none ∧
      convertRows k (r :: rest) = convertRows (k + 1) rest) ∧
    (dictGet? r "Receive Frequency" = Option.none →
      processRow idx r = Except.error "KeyError: Receive Frequency") := by
  constructor
  · intro h
    have hp : ∀ n : Nat, processRow n r = Except.ok Option.none := by
      intro n
      unfold processRow
      rw [h]
      rfl
    refine ⟨hp idx, ?_⟩
    have hstep : convertRows k (r :: rest) =
        match processRow k r with
        | Except.error e => Except.error e
        | Except.ok Option.none => convertRows (k + 1) rest
        | Except.ok (some cr) => (convertRows (k + 1) rest).map (cr :: ·) := rfl
    rw [hstep, hp k]
  · intro h
    unfold processRow
    rw [h]

/-- Witness for C4 (amended) on concrete records. -/
theorem C4_empty_drops_witness :
    (processRow 5 [("Receive Frequency", "")] = Except.ok Option.none ∧
      convertRows 1 [[("Receive Frequency", "")]] = convertRows 2 []) ∧
    processRow 5 [("Name", "X")] = Except.error "KeyError: Receive Frequency" :=
  ⟨(C4_empty_drops 5 1 [("Receive Frequency", "")] []).1 rfl,
   (C4_empty_drops 5 1 [("Name", "X")] []).2 rfl⟩

/-- C4 counterexample: a record whose column set does not include
"Receive Frequency" is not silently dropped — the transformer raises
`KeyError` and the whole run aborts. -/
theorem C4_missing_column_counterexample :
    processRow 1 [("Name", "X")] = Except.error "KeyError: Receive Frequency" ∧
    convert_rows [[("Name", "X")]] = Except.error "KeyError: Receive Frequency" :=
  ⟨rfl, rfl⟩

/-- C1 counterexample: a record with a non-empty "Receive Frequency" can
still yield *no* destination record, because a non-empty Comment value
aborts the run with `KeyError` (see C2); so the claim does not hold for
every input sequence. -/
theorem C1_nonempty_comment_counterexample :
    acceptedRF [("Receive Frequency", "146.52"), ("Comment", "Club net")] = true ∧
    convert_rows [[("Receive Frequency", "146.52"), ("Comment", "Club net")]] =
      Except.error "KeyError: Comment" :=
  ⟨rfl, rfl⟩

/-- C1 (amended): in any run that completes without an exception, each
source record with a non-empty "Receive Frequency" yields exactly one
destination record, whose `Location` is the record's 1-based ordinal
among *all* source records (dropped records still consume an ordinal, and
the counter is never decremented or reset). -/
theorem C1_location_numbering (rows : List SrcRecord) (out : List ChirpRow)
    (hok : convert_rows rows = Except.ok out)
    (i : Nat) (hi : i < rows.length)
    (hacc : acceptedRF (rows.get ⟨i, hi⟩) = true) :
    ∃ cr, processRow (i + 1) (rows.get ⟨i, hi⟩) = Except.ok (some cr) ∧
      cr ∈ out ∧ dictGet? cr "Location" = some (DVal.int (i + 1)) ∧
      out.countP (locIs (i + 1)) = 1 := by
  unfold convert_rows at hok
  obtain ⟨o, ho⟩ := convertRows_ok_each rows 1 i out hi hok
  obtain ⟨cr, rfl⟩ := processRow_accepted_ok (1 + i) _ o hacc ho
  have e : 1 + i = i + 1 := Nat.add_comm 1 i
  refine ⟨cr, by rw [← e]; exact ho, ?_, ?_, ?_⟩
  · exact convertRows_mem rows 1 i out cr hi hok ho
  · have hl := processRow_location (1 + i) _ cr ho
    rw [e] at hl
    exact hl
  · have hc := convertRows_countP_get rows 1 i out (some cr) hi hok ho
    rw [e] at hc
    simpa using hc

/-- Witness for C1 (amended) on a one-record run. -/
theorem C1_location_numbering_witness :
    ∃ cr, processRow 1 [("Receive Frequency", "x")] = Except.ok (some cr) ∧
      cr ∈ [[("Location", DVal.int 1), ("Frequency", DVal.str "x")]] ∧
      dictGet? cr "Location" = some (DVal.int 1) ∧
      ([[("Location", DVal.int 1), ("Frequency", DVal.str "x")]] : List ChirpRow).countP
        (locIs 1) = 1 :=
  C1_location_numbering [[("Receive Frequency", "x")]]
    [[("Location", DVal.int 1), ("Frequency", DVal.str "x")]] rfl 0 (by decide) (by decide)
